import Mathlib

/-!
Shallow embedding of `src/async_scraper.py` (a sequential product-page /
vehicle-fitment scraper) and proofs about its extraction, fan-out, merge
and checkpoint logic.

Modelling conventions:
* Python dicts become association lists over `String` keys with
  insert-or-overwrite semantics (`setV`) and lookup (`getV`); insertion
  order is preserved, matching Python 3 dicts.
* BeautifulSoup element lookups become `Option`-valued fields of a
  structural `Soup` record: `none` models a missing element, `some t`
  models an element whose `.text` is `t`.
* Python exceptions become `Option`/explicit outcome flags: a function
  whose body is wrapped in `try/except` that returns `None` on any
  exception is modelled as returning `none` on the corresponding paths.
* Python `str.strip` becomes `pyStrip` (drop whitespace at both ends),
  `str.replace(':', '')` becomes a character filter.
-/

/-! ## Association lists with Python-dict semantics -/

/-- Lookup in an association list (Python `d[k]` / `k in d`). -/
def getV {α : Type} : List (String × α) → String → Option α
  | [], _ => none
  | (k, v) :: t, q => if k = q then some v else getV t q

/-- Insert-or-overwrite (Python `d[k] = v`): an existing key keeps its
position and gets the new value; a new key is appended at the end. -/
def setV {α : Type} : List (String × α) → String → α → List (String × α)
  | [], k, v => [(k, v)]
  | (k', v') :: t, k, v =>
    if k' = k then (k', v) :: t else (k', v') :: setV t k v

theorem getV_setV_self {α : Type} (d : List (String × α)) (k : String) (v : α) :
    getV (setV d k v) k = some v := by
  induction d with
  | nil => simp [setV, getV]
  | cons h t ih =>
    obtain ⟨k', v'⟩ := h
    by_cases hk : k' = k
    · simp [setV, hk, getV]
    · simp [setV, hk, getV, ih]

theorem getV_setV_ne {α : Type} (d : List (String × α)) (k q : String) (v : α)
    (h : q ≠ k) : getV (setV d k v) q = getV d q := by
  have hkq : k ≠ q := fun hh => h hh.symm
  induction d with
  | nil => simp [setV, getV, hkq]
  | cons hd t ih =>
    obtain ⟨k', v'⟩ := hd
    by_cases hk : k' = k
    · subst hk
      simp [setV, getV, hkq]
    · simp [setV, hk, getV, ih]

/-! ## Python string helpers -/

/-- Drop whitespace from both ends of a character list. -/
def trimChars (l : List Char) : List Char :=
  ((l.dropWhile Char.isWhitespace).reverse.dropWhile Char.isWhitespace).reverse

/-- Python `str.strip()`. -/
def pyStrip (s : String) : String := ⟨trimChars s.data⟩

/-- Python `str.replace(':', '')`: removes every colon. -/
def removeColons (s : String) : String := ⟨s.data.filter (fun c => c ≠ ':')⟩

/-! ## Fitment Table Extractor (`extract_fitment_data`, lines 16-83) -/

/-- One `tr.fitment-row`. Each field models the optional
`td.fitment-<name>` cell: `none` when the cell is absent, `some t` when
present with text `t`. -/
structure FitmentRow where
  year : Option String
  make : Option String
  model : Option String
  trim : Option String
  engine : Option String
deriving DecidableEq, Repr

/-- The `table.fitment-table` element: an optional
`tbody.fitment-table-body` (with its `tr.fitment-row` children) and the
`tr.fitment-row` elements found directly under the table when no such
tbody exists. -/
structure FitmentTable where
  tbody : Option (List FitmentRow)
  tableRows : List FitmentRow
deriving DecidableEq, Repr

/-- A validated fitment record (source lines 60-66). -/
structure Fitment where
  year : String
  make : String
  model : String
  trim : String
  engine : String
deriving DecidableEq, Repr

/-- Cell text: `td.text.strip() if td and td.text else ''` (lines 52-56).
A missing cell or a cell with empty text gives `''`. -/
def cellText : Option String → String
  | none => ""
  | some t => if t = "" then "" else pyStrip t

/-- Lines 45-70: build the per-row record, kept only when year, make and
model are all non-empty after trimming. -/
def fitmentOfRow (row : FitmentRow) : Option Fitment :=
  let yearText := cellText row.year
  let makeText := cellText row.make
  let modelText := cellText row.model
  let trimText := cellText row.trim
  let engineText := cellText row.engine
  if yearText ≠ "" ∧ makeText ≠ "" ∧ modelText ≠ "" then
    some ⟨yearText, makeText, modelText, trimText, engineText⟩
  else
    none

/-- The `for idx, row in enumerate(rows)` loop (lines 43-70): valid rows
are appended in order, invalid ones are skipped. -/
def fitmentsOfRows : List FitmentRow → List Fitment
  | [] => []
  | r :: rs =>
    match fitmentOfRow r with
    | some f => f :: fitmentsOfRows rs
    | none => fitmentsOfRows rs

/-! ## Rendered-page model -/

/-- Structural model of the parsed page (`BeautifulSoup(driver.page_source)`)
restricted to the elements the source reads. `Option String` fields hold
the element's text when the element is present. `manufacturerFound`
models `soup.find('strong', string='Genuine Mopar Parts')` (whose text,
when found, is exactly that search string). `fieldItems` models the `li`
items of all `ul.field-list` elements, as (label text, value text) with
each side `none` when the corresponding child element is missing.
`descriptionBody` and `notes` hold the already-joined `get_text` results. -/
structure Soup where
  productTitle : Option String
  productSubtitle : Option String
  manufacturerFound : Bool
  fieldItems : List (Option String × Option String)
  descriptionBody : Option String
  notes : List String
  msrp : Option String
  salePrice : Option String
  fitmentTable : Option FitmentTable
deriving DecidableEq, Repr

/-- Lines 24-39 and 43-77: locate `table.fitment-table`; absent table
gives the empty list; otherwise iterate the tbody rows when
`tbody.fitment-table-body` exists, else the rows under the table.
The body is wrapped in `try/except` returning the accumulated list, and
no modelled operation raises, so the function is total. -/
def extract_fitment_data (soup : Soup) : List Fitment :=
  match soup.fitmentTable with
  | none => []
  | some tbl =>
    let rows := match tbl.tbody with
      | some rs => rs
      | none => tbl.tableRows
    fitmentsOfRows rows

/-! ## Product field parsing (`extract_product_data`, lines 233-305) -/

/-- A Python dict of extracted fields / an output row. -/
abbrev Row := List (String × String)

/-- Tracker dict `field_tracker` (line 249): label text to occurrence count. -/
abbrev Tracker := List (String × Nat)

/-- Line 260: `label_elem.text.strip().replace(':', '').strip()`. -/
def cleanLabel (s : String) : String := pyStrip (removeColons (pyStrip s))

/-- Line 263: `not label or label.startswith('$') or re.match(r'^\d+$', label)`. -/
def labelSkipped (label : String) : Bool :=
  label = "" || label.data.headD ' ' = '$' || (label ≠ "" && label.data.all Char.isDigit)

/-- Lines 253-273: process one `li` of a field list. An item without a
label element or without a value element is skipped; otherwise the label
is cleaned, filtered, deduplicated through `field_tracker` (a repeated
label is stored under `label ++ " " ++ count`), and written to the data
dict. -/
def fieldStep (st : Row × Tracker) : Option String × Option String → Row × Tracker
  | (some labText, some valText) =>
    let label := cleanLabel labText
    let value := pyStrip valText
    if labelSkipped label then st
    else
      match getV st.2 label with
      | some c =>
        (setV st.1 (label ++ " " ++ Nat.repr (c + 1)) value, setV st.2 label (c + 1))
      | none => (setV st.1 label value, setV st.2 label 1)
  | _ => st

/-- Lines 248-273: the loop over all field-list items, starting from the
data dict built so far and a fresh empty tracker. -/
def fieldLoop (init : Row) (items : List (Option String × Option String)) :
    Row × Tracker :=
  items.foldl fieldStep (init, [])

/-- Lines 300-304: `allowed_keys`. -/
def allowedKeys : List String :=
  ["Product Title", "Product Subtitle", "Manufacturer Info", "SKU",
   "Other Names", "Description", "Description 2", "Replaces",
   "MSRP", "Discount", "Sale Price", "Condition", "Install Time",
   "Applications", "Notes"]

/-- Line 305: `{k: data[k] for k in allowed_keys if k in data}`. -/
def filterAllowed (d : Row) : Row :=
  allowedKeys.filterMap (fun k => (getV d k).map (fun v => (k, v)))

/-- Lines 233-294: assemble the `data` dict in source order: title,
subtitle, manufacturer info (all set unconditionally, empty string when
the element is missing), then the field-list loop, then description,
notes, MSRP and sale price (each set only when found). -/
def parseData (soup : Soup) : Row :=
  let d := setV [] "Product Title"
    (match soup.productTitle with | some t => pyStrip t | none => "")
  let d := setV d "Product Subtitle"
    (match soup.productSubtitle with | some t => pyStrip t | none => "")
  let d := setV d "Manufacturer Info"
    (if soup.manufacturerFound then "Genuine Mopar Parts" else "")
  let d := (fieldLoop d soup.fieldItems).1
  let d := match soup.descriptionBody with
    | some txt => setV d "Description" txt
    | none => d
  let d := match soup.notes with
    | [] => d
    | ns => setV d "Notes" (String.intercalate " | " ns)
  let d := match soup.msrp with
    | some t => setV d "MSRP" (pyStrip t)
    | none => d
  match soup.salePrice with
  | some t => setV d "Sale Price" (pyStrip t)
  | none => d

/-! ## Fan-out (lines 307-323) -/

/-- The five fitment output columns, in the order `row.update(fitment)`
inserts them. -/
def fitmentKeys : List String :=
  ["Year", "Make", "Model", "Body & Trim", "Engine & Transmission"]

/-- `row = filtered_data.copy(); row.update(fitment)` (lines 311-312):
write the five fitment fields into a copy of the product fields. -/
def applyFitment (filtered : Row) (f : Fitment) : Row :=
  setV (setV (setV (setV (setV filtered
    "Year" f.year) "Make" f.make) "Model" f.model)
    "Body & Trim" f.trim) "Engine & Transmission" f.engine

/-- The placeholder fitment of lines 316-320 (all five fields `''`). -/
def emptyFitment : Fitment := ⟨"", "", "", "", ""⟩

/-- Lines 308-321: one output row per fitment, or a single placeholder
row when the fitment list is empty. -/
def fanOut (filtered : Row) (fitments : List Fitment) : List Row :=
  match fitments with
  | [] => [applyFitment filtered emptyFitment]
  | _ => fitments.map (applyFitment filtered)

/-- Lines 231-323: the parsing half of `extract_product_data`, from the
markup snapshot to the list of result rows. -/
def buildRows (soup : Soup) : List Row :=
  fanOut (filterAllowed (parseData soup)) (extract_fitment_data soup)

/-! ## Render driver session (`create_driver_with_profile`,
`cleanup_profile`, and the `try/except/finally` of
`extract_product_data`) -/

/-- Observable session side effects: `tempfile.mkdtemp` (line 91),
`driver.quit()` (line 330) and `cleanup_profile` (line 333, whose
`shutil.rmtree(..., ignore_errors=True)` tolerates deletion failure). -/
inductive SessEvent where
  | profileCreated
  | driverQuit
  | profileCleaned
deriving DecidableEq, Repr

/-- Per-URL environment: whether `webdriver.Chrome` (or the driver
manager) raises after the profile directory was created, whether the
20s wait for `product-title` times out, and the parsed snapshot the
page yields. The middle reveal stages (tab click, scrolls, expander,
row polling) are each wrapped in their own `try/except` and only
mutate the live DOM, so their outcomes are fully captured by `soup`. -/
structure Env where
  chromeRaises : Bool
  titleTimeout : Bool
  soup : Soup
deriving DecidableEq, Repr

/-- Lines 85-127: `tempfile.mkdtemp` always creates the profile
directory first; driver construction may then raise, in which case the
function raises (returns `none`) with the directory already on disk. -/
def create_driver_with_profile (env : Env) : Option Unit × List SessEvent :=
  if env.chromeRaises then (none, [SessEvent.profileCreated])
  else (some (), [SessEvent.profileCreated])

/-- Lines 138-333: `extract_product_data`. `driver` and `profile_path`
start as `None`; if `create_driver_with_profile` raises, the tuple
assignment on line 148 never happens, the `except` returns `None`, and
the `finally` sees both still `None` and runs neither `driver.quit()`
nor `cleanup_profile`. If the title wait times out, the `except`
returns `None` and the `finally` quits and cleans. Otherwise parsing is
total and the result rows are returned, again through the `finally`. -/
def extract_product_data (env : Env) : Option (List Row) × List SessEvent :=
  match create_driver_with_profile env with
  | (none, evs) => (none, evs)
  | (some _, evs) =>
    if env.titleTimeout then
      (none, evs ++ [SessEvent.driverQuit, SessEvent.profileCleaned])
    else
      (some (buildRows env.soup), evs ++ [SessEvent.driverQuit, SessEvent.profileCleaned])

/-! ## Batch Coordinator (`process_excel_file`, lines 335-410) -/

/-- Line 347/361: the URL column name. -/
def urlKey : String := "product-image-link href"

/-- The input spreadsheet: `df.columns` and the rows as dicts keyed by
column name. A pandas NaN cell (`pd.isna`) is modelled as an absent key. -/
structure Sheet where
  columns : List String
  rows : List Row
deriving DecidableEq, Repr

/-- Line 361: `row['product-image-link href']`. -/
def rowUrl (r : Row) : Option String := getV r urlKey

/-- Line 363: the row is skipped when `pd.isna(url) or url == ''`. -/
def hasUrl (r : Row) : Bool :=
  match rowUrl r with
  | none => false
  | some u => !(u = "")

/-- Whether `extract_product_data(url)` for this row yields a truthy
(non-`None`, non-empty) result, line 371's `if product_rows:`. The
per-URL extraction outcome is an oracle `e : String → Option (List Row)`. -/
def rowSuccess (e : String → Option (List Row)) (r : Row) : Bool :=
  match rowUrl r with
  | none => false
  | some u =>
    if u = "" then false
    else
      match e u with
      | some (_ :: _) => true
      | _ => false

/-- Lines 373-375: copy each original input column into the output row
only when its key is not already present there and is present in the
input row. -/
def mergeInput (inputRow : Row) : List String → Row → Row
  | [], pr => pr
  | c :: cs, pr =>
    mergeInput inputRow cs
      (match getV pr c, getV inputRow c with
       | none, some v => setV pr c v
       | _, _ => pr)

/-- One record per input row of the run: whether the row was skipped for
lack of a URL, whether extraction succeeded, and whether the checkpoint
save on lines 386-392 ran after this iteration. -/
structure IterRec where
  skipped : Bool
  success : Bool
  saved : Bool
deriving DecidableEq, Repr

/-- The loop state: `all_rows`, `success_count`, `processed_count`
(lines 354-357) plus the per-iteration trace. -/
structure RunState where
  allRows : List Row
  successCount : Nat
  processedCount : Nat
  iters : List IterRec
deriving DecidableEq, Repr

/-- Lines 360-392, one iteration: a row without URL hits `continue`
(no processed increment, no checkpoint); otherwise extraction runs, a
truthy result is merged with the input columns and accumulated with the
success count incremented, and then the checkpoint save runs exactly
when `success_count % 10 == 0` holds at that point, successful or not. -/
def stepRow (e : String → Option (List Row)) (cols : List String)
    (s : RunState) (r : Row) : RunState :=
  match rowUrl r with
  | none => { s with iters := s.iters ++ [⟨true, false, false⟩] }
  | some u =>
    if u = "" then { s with iters := s.iters ++ [⟨true, false, false⟩] }
    else
      match e u with
      | some (p :: ps) =>
        let merged := (p :: ps).map (mergeInput r cols)
        { allRows := s.allRows ++ merged,
          successCount := s.successCount + 1,
          processedCount := s.processedCount + 1,
          iters := s.iters ++ [⟨false, true, (s.successCount + 1) % 10 == 0⟩] }
      | _ =>
        { s with
          processedCount := s.processedCount + 1,
          iters := s.iters ++ [⟨false, false, s.successCount % 10 == 0⟩] }

/-- The `for idx, (_, row) in enumerate(df.iterrows())` loop. -/
def runFrom (e : String → Option (List Row)) (cols : List String) :
    RunState → List Row → RunState
  | s, [] => s
  | s, r :: rs => runFrom e cols (stepRow e cols s r) rs

/-- The whole loop from the initial state of lines 354-357. -/
def runLoop (e : String → Option (List Row)) (cols : List String)
    (rows : List Row) : RunState :=
  runFrom e cols ⟨[], 0, 0, []⟩ rows

/-- Result of `process_excel_file` after the sheet was read:
`aborted` when the URL column is missing (lines 347-349), the final
loop state, and whether the final save on lines 400-408 ran (it is
guarded by `if all_rows:`). -/
structure RunOutput where
  aborted : Bool
  state : RunState
  finalSaved : Bool
deriving DecidableEq, Repr

/-- Lines 341-410 after a successful read: missing URL column means an
immediate return with nothing processed and nothing written; otherwise
the loop runs and the final save happens iff `all_rows` is non-empty. -/
def process_excel_file (sheet : Sheet) (e : String → Option (List Row)) :
    RunOutput :=
  if urlKey ∈ sheet.columns then
    let st := runLoop e sheet.columns sheet.rows
    ⟨false, st, !st.allRows.isEmpty⟩
  else
    ⟨true, ⟨[], 0, 0, []⟩, false⟩

/-! ## Lemmas about the fan-out -/

theorem applyFitment_getV_notMem (filtered : Row) (f : Fitment) (k : String)
    (hk : k ∉ fitmentKeys) : getV (applyFitment filtered f) k = getV filtered k := by
  simp only [fitmentKeys, List.mem_cons, List.not_mem_nil, or_false, not_or] at hk
  obtain ⟨h1, h2, h3, h4, h5⟩ := hk
  unfold applyFitment
  rw [getV_setV_ne _ _ _ _ h5, getV_setV_ne _ _ _ _ h4, getV_setV_ne _ _ _ _ h3,
    getV_setV_ne _ _ _ _ h2, getV_setV_ne _ _ _ _ h1]

theorem applyFitment_getV_fields (filtered : Row) (f : Fitment) :
    getV (applyFitment filtered f) "Year" = some f.year ∧
    getV (applyFitment filtered f) "Make" = some f.make ∧
    getV (applyFitment filtered f) "Model" = some f.model ∧
    getV (applyFitment filtered f) "Body & Trim" = some f.trim ∧
    getV (applyFitment filtered f) "Engine & Transmission" = some f.engine := by
  unfold applyFitment
  refine ⟨?_, ?_, ?_, ?_, ?_⟩
  · rw [getV_setV_ne _ _ _ _ (by decide), getV_setV_ne _ _ _ _ (by decide),
      getV_setV_ne _ _ _ _ (by decide), getV_setV_ne _ _ _ _ (by decide),
      getV_setV_self]
  · rw [getV_setV_ne _ _ _ _ (by decide), getV_setV_ne _ _ _ _ (by decide),
      getV_setV_ne _ _ _ _ (by decide), getV_setV_self]
  · rw [getV_setV_ne _ _ _ _ (by decide), getV_setV_ne _ _ _ _ (by decide),
      getV_setV_self]
  · rw [getV_setV_ne _ _ _ _ (by decide), getV_setV_self]
  · rw [getV_setV_self]

/-- Claim C1: for a product page extraction that succeeds, if the fitment
extractor yields N >= 1 valid records then `buildRows` returns exactly N
rows, whose non-fitment lookups all equal the filtered product fields
(so the rows are identical outside the five fitment columns) and whose
five fitment columns hold the corresponding record's fields; if it
yields 0 records, exactly one row is returned, with all five fitment
columns equal to the empty string and the product fields unchanged. -/
theorem claim_c1 (soup : Soup) :
    (extract_fitment_data soup ≠ [] →
      (buildRows soup).length = (extract_fitment_data soup).length ∧
      ∀ i, i < (extract_fitment_data soup).length →
        ∃ r, (buildRows soup)[i]? = some r ∧
          (∀ k, k ∉ fitmentKeys →
            getV r k = getV (filterAllowed (parseData soup)) k) ∧
          getV r "Year" =
            some (((extract_fitment_data soup).getD i emptyFitment).year) ∧
          getV r "Make" =
            some (((extract_fitment_data soup).getD i emptyFitment).make) ∧
          getV r "Model" =
            some (((extract_fitment_data soup).getD i emptyFitment).model) ∧
          getV r "Body & Trim" =
            some (((extract_fitment_data soup).getD i emptyFitment).trim) ∧
          getV r "Engine & Transmission" =
            some (((extract_fitment_data soup).getD i emptyFitment).engine)) ∧
    (extract_fitment_data soup = [] →
      (buildRows soup).length = 1 ∧
      ∀ r ∈ buildRows soup,
        (∀ k, k ∉ fitmentKeys →
          getV r k = getV (filterAllowed (parseData soup)) k) ∧
        getV r "Year" = some "" ∧ getV r "Make" = some "" ∧
        getV r "Model" = some "" ∧ getV r "Body & Trim" = some "" ∧
        getV r "Engine & Transmission" = some "") := by
  constructor
  · intro hne
    have hrows : buildRows soup =
        (extract_fitment_data soup).map
          (applyFitment (filterAllowed (parseData soup))) := by
      unfold buildRows fanOut
      match h : extract_fitment_data soup with
      | [] => exact absurd h hne
      | f :: fs => rfl
    refine ⟨by rw [hrows, List.length_map], ?_⟩
    intro i hi
    refine ⟨applyFitment (filterAllowed (parseData soup))
      ((extract_fitment_data soup).getD i emptyFitment), ?_, ?_, ?_⟩
    · rw [hrows, List.getElem?_map, List.getElem?_eq_getElem hi,
        Option.map_some', List.getD_eq_getElem _ _ hi]
    · intro k hk
      exact applyFitment_getV_notMem _ _ _ hk
    · exact applyFitment_getV_fields _ _
  · intro hnil
    have hrows : buildRows soup =
        [applyFitment (filterAllowed (parseData soup)) emptyFitment] := by
      unfold buildRows fanOut
      rw [hnil]
    rw [hrows]
    refine ⟨rfl, ?_⟩
    intro r hr
    rw [List.mem_singleton] at hr
    subst hr
    exact ⟨fun k hk => applyFitment_getV_notMem _ _ _ hk,
      applyFitment_getV_fields _ _⟩

/-! ## Fitment-row claims -/

theorem cellText_eq_pyStrip_getD (c : Option String) :
    cellText c = pyStrip (c.getD "") := by
  cases c with
  | none => rfl
  | some t =>
    by_cases h : t = ""
    · subst h
      rfl
    · simp [cellText, h]

/-- Claim C5: a fitment row yields a record iff its year, make and model
texts are all non-empty after trimming (a missing cell counting as the
empty string), and an invalid row is dropped without affecting which
sibling rows are retained or their values. -/
theorem claim_c5 :
    (∀ row : FitmentRow, (fitmentOfRow row).isSome ↔
      (pyStrip (row.year.getD "") ≠ "" ∧ pyStrip (row.make.getD "") ≠ "" ∧
       pyStrip (row.model.getD "") ≠ "")) ∧
    (∀ (l1 l2 : List FitmentRow) (bad : FitmentRow), fitmentOfRow bad = none →
      fitmentsOfRows (l1 ++ bad :: l2) = fitmentsOfRows (l1 ++ l2)) := by
  constructor
  · intro row
    have h : (fitmentOfRow row).isSome ↔
        (cellText row.year ≠ "" ∧ cellText row.make ≠ "" ∧
         cellText row.model ≠ "") := by
      simp only [fitmentOfRow]
      split <;> simp_all
    rw [h, cellText_eq_pyStrip_getD, cellText_eq_pyStrip_getD,
      cellText_eq_pyStrip_getD]
  · intro l1 l2 bad hbad
    induction l1 with
    | nil => simp [fitmentsOfRows, hbad]
    | cons r rs ih =>
      cases hfr : fitmentOfRow r <;> simp [fitmentsOfRows, hfr, ih]

/-- Claim C5 witness: a row with a whitespace-only year is dropped and
does not disturb its two valid siblings. -/
theorem claim_c5_witness :
    fitmentsOfRows
      ([⟨some "2020", some "Jeep", some "Wrangler", some "Sport", some "3.6L"⟩] ++
        (⟨some "  ", some "Jeep", some "Gladiator", none, none⟩ : FitmentRow) ::
        [⟨some "2021", some "Ram", some "1500", none, some "5.7L"⟩]) =
    fitmentsOfRows
      ([⟨some "2020", some "Jeep", some "Wrangler", some "Sport", some "3.6L"⟩] ++
        [⟨some "2021", some "Ram", some "1500", none, some "5.7L"⟩]) :=
  claim_c5.2 _ _ _ (by decide)

/-- Claim C6: markup without the `table.fitment-table` marker yields the
empty sequence. (The extractor is a total function of the parsed markup
— the source wraps its body in a catch-all `try/except` that still
returns the accumulated list — so no input makes it raise.) -/
theorem claim_c6 (soup : Soup) (h : soup.fitmentTable = none) :
    extract_fitment_data soup = [] := by
  unfold extract_fitment_data
  rw [h]

/-- Claim C6 witness at a concrete page with no fitment table. -/
theorem claim_c6_witness :
    extract_fitment_data
      ⟨some "A Part", none, true, [(some "SKU", some "X")], none, [], none,
        none, none⟩ = [] :=
  claim_c6 _ rfl

/-! ## Input-column merge (claim C7) -/

theorem mergeInput_getV_present (ir : Row) (k : String) (v : String) :
    ∀ (cols : List String) (pr : Row), getV pr k = some v →
      getV (mergeInput ir cols pr) k = some v := by
  intro cols
  induction cols with
  | nil => intro pr h; exact h
  | cons c cs ih =>
    intro pr h
    unfold mergeInput
    apply ih
    cases hc : getV pr c with
    | some w => simp [hc, h]
    | none =>
      cases hic : getV ir c with
      | none => simp [hc, hic, h]
      | some w =>
        simp only [hc, hic]
        have hck : k ≠ c := by
          intro he
          rw [he, hc] at h
          exact Option.noConfusion h
        rw [getV_setV_ne _ _ _ _ hck]
        exact h

theorem mergeInput_getV_absent (ir : Row) (k : String) :
    ∀ (cols : List String) (pr : Row), getV pr k = none →
      getV (mergeInput ir cols pr) k = if k ∈ cols then getV ir k else none := by
  intro cols
  induction cols with
  | nil => intro pr h; simpa [mergeInput]
  | cons c cs ih =>
    intro pr h
    unfold mergeInput
    by_cases hck : c = k
    · subst hck
      cases hic : getV ir c with
      | some w =>
        rw [mergeInput_getV_present ir c w cs _ (by simp [h, hic, getV_setV_self])]
        simp [hic]
      | none =>
        rw [ih _ (by simp [h, hic])]
        simp [hic]
    · have hne : k ≠ c := fun he => hck he.symm
      have hpr' : getV (match getV pr c, getV ir c with
          | none, some v => setV pr c v
          | _, _ => pr) k = none := by
        cases hc : getV pr c with
        | some w => simpa [hc]
        | none =>
          cases hic : getV ir c with
          | none => simpa [hc, hic]
          | some w => simp [hc, hic, getV_setV_ne _ _ _ _ hne, h]
      rw [ih _ hpr']
      simp [hne]

/-- Claim C7: when the coordinator merges the original input columns into
a fan-out row, a key already present keeps its extracted value, and an
absent key receives the input row's value exactly when the key is one of
the input columns and present in the input row. -/
theorem claim_c7 (ir pr : Row) (cols : List String) (k : String) :
    (∀ v, getV pr k = some v → getV (mergeInput ir cols pr) k = some v) ∧
    (getV pr k = none →
      getV (mergeInput ir cols pr) k = if k ∈ cols then getV ir k else none) :=
  ⟨fun v h => mergeInput_getV_present ir k v cols pr h,
   fun h => mergeInput_getV_absent ir k cols pr h⟩

/-- Claim C7 witness: with input columns `SKU` and `carried`, the
extracted `SKU` value survives the merge and the `carried` column is
copied in. -/
theorem claim_c7_witness :
    getV (mergeInput [(("SKU" : String), ("abc" : String)), ("carried", "x")]
      ["SKU", "carried"] [(("SKU" : String), ("ABC" : String))]) "SKU" = some "ABC" ∧
    getV (mergeInput [(("SKU" : String), ("abc" : String)), ("carried", "x")]
      ["SKU", "carried"] [(("SKU" : String), ("ABC" : String))]) "carried" = some "x" :=
  ⟨(claim_c7 _ _ _ _).1 "ABC" rfl,
   ((claim_c7 [("SKU", "abc"), ("carried", "x")] [("SKU", "ABC")]
      ["SKU", "carried"] "carried").2 (by decide)).trans (by decide)⟩

/-! ## Declarative characterization of the batch loop -/

/-- The iteration record one row produces, given the success count
before the iteration. -/
def iterFor (e : String → Option (List Row)) (base : Nat) (r : Row) : IterRec :=
  if hasUrl r then
    (if rowSuccess e r then ⟨false, true, (base + 1) % 10 == 0⟩
     else ⟨false, false, base % 10 == 0⟩)
  else ⟨true, false, false⟩

/-- The iteration records a row list produces from a given starting
success count. -/
def itersFor (e : String → Option (List Row)) : Nat → List Row → List IterRec
  | _, [] => []
  | base, r :: rs =>
    iterFor e base r ::
      itersFor e (base + (if rowSuccess e r then 1 else 0)) rs

/-- The output rows one input row contributes (the merged fan-out rows
on success, nothing otherwise). -/
def mergedFor (e : String → Option (List Row)) (cols : List String)
    (r : Row) : List Row :=
  match rowUrl r with
  | none => []
  | some u =>
    if u = "" then []
    else
      match e u with
      | some (p :: ps) => (p :: ps).map (mergeInput r cols)
      | _ => []

/-- The output rows a row list contributes, in order. -/
def outRowsFor (e : String → Option (List Row)) (cols : List String) :
    List Row → List Row
  | [] => []
  | r :: rs => mergedFor e cols r ++ outRowsFor e cols rs

theorem rowSuccess_eq_false_of_not_hasUrl (e : String → Option (List Row))
    (r : Row) (h : hasUrl r = false) : rowSuccess e r = false := by
  unfold hasUrl at h
  unfold rowSuccess
  cases hu : rowUrl r with
  | none => rfl
  | some u =>
    rw [hu] at h
    simp only [Bool.not_eq_eq_eq_not, Bool.not_false] at h
    simp [h]

theorem stepRow_char (e : String → Option (List Row)) (cols : List String)
    (s : RunState) (r : Row) :
    stepRow e cols s r =
      { allRows := s.allRows ++ mergedFor e cols r,
        successCount := s.successCount + (if rowSuccess e r then 1 else 0),
        processedCount := s.processedCount + (if hasUrl r then 1 else 0),
        iters := s.iters ++ [iterFor e s.successCount r] } := by
  unfold stepRow mergedFor iterFor hasUrl rowSuccess
  cases hu : rowUrl r with
  | none => simp
  | some u =>
    by_cases hue : u = ""
    · simp [hue]
    · cases he : e u with
      | none => simp [hue, he]
      | some prows =>
        cases prows with
        | nil => simp [hue, he]
        | cons p ps => simp [hue, he]

theorem runFrom_spec (e : String → Option (List Row)) (cols : List String) :
    ∀ (rows : List Row) (s : RunState),
      (runFrom e cols s rows).iters = s.iters ++ itersFor e s.successCount rows ∧
      (runFrom e cols s rows).successCount
        = s.successCount + rows.countP (rowSuccess e) ∧
      (runFrom e cols s rows).processedCount
        = s.processedCount + rows.countP hasUrl ∧
      (runFrom e cols s rows).allRows = s.allRows ++ outRowsFor e cols rows := by
  intro rows
  induction rows with
  | nil => intro s; simp [runFrom, itersFor, outRowsFor]
  | cons r rs ih =>
    intro s
    refine ⟨?_, ?_, ?_, ?_⟩
    · show (runFrom e cols (stepRow e cols s r) rs).iters = _
      rw [stepRow_char, (ih _).1]
      simp [itersFor, List.append_assoc]
    · show (runFrom e cols (stepRow e cols s r) rs).successCount = _
      rw [stepRow_char, (ih _).2.1]
      cases hsr : rowSuccess e r <;>
        simp [List.countP_cons, hsr] <;>
        omega
    · show (runFrom e cols (stepRow e cols s r) rs).processedCount = _
      rw [stepRow_char, (ih _).2.2.1]
      cases hhu : hasUrl r <;>
        simp [List.countP_cons, hhu] <;>
        omega
    · show (runFrom e cols (stepRow e cols s r) rs).allRows = _
      rw [stepRow_char, (ih _).2.2.2]
      simp [outRowsFor, List.append_assoc]

theorem itersFor_length (e : String → Option (List Row)) :
    ∀ (rows : List Row) (base : Nat), (itersFor e base rows).length = rows.length := by
  intro rows
  induction rows with
  | nil => intro base; rfl
  | cons r rs ih => intro base; simp [itersFor, ih]

theorem itersFor_getD (e : String → Option (List Row)) :
    ∀ (rows : List Row) (base i : Nat), i < rows.length →
      (itersFor e base rows).getD i ⟨true, false, false⟩ =
        iterFor e (base + (rows.take i).countP (rowSuccess e)) (rows.getD i []) := by
  intro rows
  induction rows with
  | nil => intro base i hi; exact absurd hi (by simp)
  | cons r rs ih =>
    intro base i hi
    cases i with
    | zero => simp [itersFor]
    | succ j =>
      have hj : j < rs.length := by simpa using hi
      rw [show ((r :: rs).take (j + 1)) = r :: rs.take j from List.take_succ_cons]
      rw [List.countP_cons]
      simp only [itersFor, List.getD_cons_succ]
      rw [ih (base + (if rowSuccess e r then 1 else 0)) j hj]
      congr 1
      omega

theorem countP_take_succ (p : Row → Bool) (rows : List Row) (i : Nat)
    (hi : i < rows.length) :
    (rows.take (i + 1)).countP p =
      (rows.take i).countP p + (if p (rows.getD i []) then 1 else 0) := by
  rw [List.take_succ, List.countP_append, List.getElem?_eq_getElem hi]
  rw [List.getD_eq_getElem rows [] hi]
  simp [List.countP_cons]

theorem mergedFor_eq_nil_iff (e : String → Option (List Row))
    (cols : List String) (r : Row) :
    mergedFor e cols r = [] ↔ rowSuccess e r = false := by
  unfold mergedFor rowSuccess
  cases hu : rowUrl r with
  | none => simp
  | some u =>
    by_cases hue : u = ""
    · simp [hue]
    · cases he : e u with
      | none => simp [hue, he]
      | some prows =>
        cases prows with
        | nil => simp [hue, he]
        | cons p ps => simp [hue, he]

theorem outRowsFor_eq_nil_iff (e : String → Option (List Row))
    (cols : List String) :
    ∀ rows : List Row,
      outRowsFor e cols rows = [] ↔ rows.countP (rowSuccess e) = 0 := by
  intro rows
  induction rows with
  | nil => simp [outRowsFor]
  | cons r rs ih =>
    constructor
    · intro h
      obtain ⟨h1, h2⟩ := List.append_eq_nil.mp h
      have hs := (mergedFor_eq_nil_iff e cols r).mp h1
      have h2' := ih.mp h2
      simp [List.countP_cons, hs, h2']
    · intro h
      rw [List.countP_cons] at h
      cases hsr : rowSuccess e r with
      | true => simp [hsr] at h
      | false =>
        have h' : rs.countP (rowSuccess e) = 0 := by
          simpa [hsr] using h
        show mergedFor e cols r ++ outRowsFor e cols rs = []
        rw [(mergedFor_eq_nil_iff e cols r).mpr hsr, ih.mpr h']
        rfl

/-- The spec's checkpoint contract, stated as written in the claim:
persistence runs exactly after each success that brings the cumulative
success count to a multiple of 10 (never after any other iteration),
and the end-of-run persistence of the accumulated rows is unconditional. -/
def checkpointClaim : Prop :=
  ∀ (e : String → Option (List Row)) (cols : List String) (rows : List Row),
    (∀ i, i < rows.length →
      ((runLoop e cols rows).iters.getD i ⟨true, false, false⟩).saved =
        (((runLoop e cols rows).iters.getD i ⟨true, false, false⟩).success &&
          ((rows.take (i + 1)).countP (rowSuccess e) % 10 == 0))) ∧
    (urlKey ∈ cols → (process_excel_file ⟨cols, rows⟩ e).finalSaved = true)

/-- Claim C2 counterexample: a run whose single URL fails. The loop still
persists after that failed iteration (success count 0 satisfies
`success_count % 10 == 0`), and the final save is skipped because
`all_rows` is empty — so persistence fires at a non-success point and
the end-of-run persistence is not unconditional. -/
theorem claim_c2_counterexample : ¬ checkpointClaim := by
  intro h
  have h2 := (h (fun _ => none) [urlKey] [[(urlKey, "u")]]).1 0 (by decide)
  exact absurd h2 (by decide)

/-- Claim C2, amended: the checkpoint save runs after every non-skipped
iteration whose current cumulative success count is divisible by 10 —
that is at successes 10, 20, 30, …, but also after a failed extraction
while the success count stands at a multiple of 10 (including 0) — and
the end-of-run save runs iff at least one extraction succeeded (the
accumulated row set is non-empty). -/
theorem claim_c2 (e : String → Option (List Row)) (cols : List String)
    (rows : List Row) :
    (∀ i, i < rows.length →
      ((runLoop e cols rows).iters.getD i ⟨true, false, false⟩).saved =
        (!((runLoop e cols rows).iters.getD i ⟨true, false, false⟩).skipped &&
          ((rows.take (i + 1)).countP (rowSuccess e) % 10 == 0))) ∧
    (urlKey ∈ cols →
      ((process_excel_file ⟨cols, rows⟩ e).finalSaved = true ↔
        0 < rows.countP (rowSuccess e))) := by
  have hiters : (runLoop e cols rows).iters = itersFor e 0 rows := by
    have h := (runFrom_spec e cols rows ⟨[], 0, 0, []⟩).1
    simpa [runLoop] using h
  constructor
  · intro i hi
    rw [hiters, itersFor_getD e rows 0 i hi,
      countP_take_succ (rowSuccess e) rows i hi]
    generalize rows.getD i [] = r0
    cases hhu : hasUrl r0 with
    | false =>
      have hsr := rowSuccess_eq_false_of_not_hasUrl e r0 hhu
      simp [iterFor, hhu, hsr]
    | true =>
      cases hsr : rowSuccess e r0 with
      | false => simp [iterFor, hhu, hsr]
      | true => simp [iterFor, hhu, hsr]
  · intro hcol
    have hall : (runLoop e cols rows).allRows = outRowsFor e cols rows := by
      have h := (runFrom_spec e cols rows ⟨[], 0, 0, []⟩).2.2.2
      simpa [runLoop] using h
    unfold process_excel_file
    rw [if_pos hcol]
    simp only [hall]
    rw [Bool.not_eq_eq_eq_not]
    constructor
    · intro h
      by_contra hc
      have h0 : rows.countP (rowSuccess e) = 0 := by omega
      have := (outRowsFor_eq_nil_iff e cols rows).mpr h0
      simp [this] at h
    · intro h
      have hne : outRowsFor e cols rows ≠ [] := by
        intro hnil
        have := (outRowsFor_eq_nil_iff e cols rows).mp hnil
        omega
      simpa [List.isEmpty_iff]

/-- Claim C2 witness: one URL, one success. The checkpoint flag after
iteration 0 is `false` (success count 1 is not a multiple of 10), and
the final save runs because a row was accumulated. -/
theorem claim_c2_witness :
    ((runLoop (fun u => if u = "u1" then some [[("Product Title", "T")]] else none)
        [urlKey] [[(urlKey, "u1")]]).iters.getD 0 ⟨true, false, false⟩).saved
      = false ∧
    (process_excel_file ⟨[urlKey], [[(urlKey, "u1")]]⟩
        (fun u => if u = "u1" then some [[("Product Title", "T")]] else none)).finalSaved
      = true :=
  ⟨((claim_c2 (fun u => if u = "u1" then some [[("Product Title", "T")]] else none)
      [urlKey] [[(urlKey, "u1")]]).1 0 (by decide)).trans (by decide),
   ((claim_c2 (fun u => if u = "u1" then some [[("Product Title", "T")]] else none)
      [urlKey] [[(urlKey, "u1")]]).2 (by decide)).mpr (by decide)⟩

/-- Claim C8: the loop visits every input row exactly once, each
iteration's skip/success outcome depends only on that row and the
extraction oracle (never on earlier failures), the processed count is
the number of URL-bearing rows, and the success count is the number of
successful rows — so a failed URL never prevents later rows from being
processed, and in this total model no error leaves a loop iteration. -/
theorem claim_c8 (e : String → Option (List Row)) (cols : List String)
    (rows : List Row) :
    (runLoop e cols rows).iters.length = rows.length ∧
    (runLoop e cols rows).processedCount = rows.countP hasUrl ∧
    (runLoop e cols rows).successCount = rows.countP (rowSuccess e) ∧
    (∀ i, i < rows.length →
      ((runLoop e cols rows).iters.getD i ⟨true, false, false⟩).skipped
          = !hasUrl (rows.getD i []) ∧
      ((runLoop e cols rows).iters.getD i ⟨true, false, false⟩).success
          = rowSuccess e (rows.getD i [])) := by
  have hiters : (runLoop e cols rows).iters = itersFor e 0 rows := by
    have h := (runFrom_spec e cols rows ⟨[], 0, 0, []⟩).1
    simpa [runLoop] using h
  refine ⟨?_, ?_, ?_, ?_⟩
  · rw [hiters]
    exact itersFor_length e rows 0
  · have h := (runFrom_spec e cols rows ⟨[], 0, 0, []⟩).2.2.1
    simpa [runLoop] using h
  · have h := (runFrom_spec e cols rows ⟨[], 0, 0, []⟩).2.1
    simpa [runLoop] using h
  · intro i hi
    rw [hiters, itersFor_getD e rows 0 i hi]
    generalize rows.getD i [] = r0
    cases hhu : hasUrl r0 with
    | false =>
      have hsr := rowSuccess_eq_false_of_not_hasUrl e r0 hhu
      simp [iterFor, hhu, hsr]
    | true =>
      cases hsr : rowSuccess e r0 with
      | false => simp [iterFor, hhu, hsr]
      | true => simp [iterFor, hhu, hsr]

/-- Claim C8 witness: the first URL fails, yet the loop still records two
iterations and the second one succeeds. -/
theorem claim_c8_witness :
    (runLoop (fun u => if u = "u2" then some [[("Product Title", "T")]] else none)
        [urlKey] [[(urlKey, "u1")], [(urlKey, "u2")]]).iters.length = 2 ∧
    ((runLoop (fun u => if u = "u2" then some [[("Product Title", "T")]] else none)
        [urlKey] [[(urlKey, "u1")], [(urlKey, "u2")]]).iters.getD 1
        ⟨true, false, false⟩).success = true :=
  ⟨(claim_c8 (fun u => if u = "u2" then some [[("Product Title", "T")]] else none)
      [urlKey] [[(urlKey, "u1")], [(urlKey, "u2")]]).1.trans (by decide),
   (((claim_c8 (fun u => if u = "u2" then some [[("Product Title", "T")]] else none)
      [urlKey] [[(urlKey, "u1")], [(urlKey, "u2")]]).2.2.2 1 (by decide)).2).trans
      (by decide)⟩

/-- A page whose parsed snapshot contains none of the elements the
extractor looks for. -/
def emptySoup : Soup := ⟨none, none, false, [], none, [], none, none, none⟩

/-- The spec's driver-failure contract, stated as written in claim C4:
if driver provisioning raises for the URL of row `i`, the whole batch
run terminates there — no row after `i` gets a loop iteration. -/
def fatalDriverClaim : Prop :=
  ∀ (envOf : String → Env) (cols : List String) (rows : List Row) (i : Nat),
    i < rows.length →
    hasUrl (rows.getD i []) = true →
    (envOf ((rowUrl (rows.getD i [])).getD "")).chromeRaises = true →
    (runLoop (fun u => (extract_product_data (envOf u)).1) cols rows).iters.length
      ≤ i + 1

/-- Claim C4 counterexample: driver provisioning raises on the first of
two URLs, yet the loop still runs both iterations — the failure is
caught inside `extract_product_data` (which returns `None`) and treated
as a per-URL skip, not as a fatal error. -/
theorem claim_c4_counterexample : ¬ fatalDriverClaim := by
  intro h
  have h2 := h (fun _ => ⟨true, false, emptySoup⟩) [urlKey]
    [[(urlKey, "a")], [(urlKey, "b")]] 0 (by decide) (by decide) (by decide)
  exact absurd h2 (by decide)

/-- Claim C4, amended: a driver-provisioning failure is caught by
`extract_product_data`'s catch-all handler and surfaces as `None` — the
same per-URL skip as any other extraction failure — and the batch loop
always runs one iteration per input row regardless of such failures. -/
theorem claim_c4 (env : Env) (envOf : String → Env) (cols : List String)
    (rows : List Row) :
    (env.chromeRaises = true → (extract_product_data env).1 = none) ∧
    (runLoop (fun u => (extract_product_data (envOf u)).1) cols rows).iters.length
      = rows.length := by
  constructor
  · intro h
    unfold extract_product_data create_driver_with_profile
    simp [h]
  · have hiters :=
      (runFrom_spec (fun u => (extract_product_data (envOf u)).1) cols rows
        ⟨[], 0, 0, []⟩).1
    simp only [runLoop]
    rw [hiters]
    simp [itersFor_length]

/-- Claim C4 witness: a concrete raising environment yields a skip, and a
two-row batch under it still iterates twice. -/
theorem claim_c4_witness :
    (extract_product_data ⟨true, false, emptySoup⟩).1 = none ∧
    (runLoop (fun u => (extract_product_data ((fun _ => (⟨true, false, emptySoup⟩ : Env)) u)).1)
        [urlKey] [[(urlKey, "a")], [(urlKey, "b")]]).iters.length = 2 :=
  ⟨(claim_c4 ⟨true, false, emptySoup⟩ (fun _ => ⟨true, false, emptySoup⟩)
      [urlKey] [[(urlKey, "a")], [(urlKey, "b")]]).1 rfl,
   (claim_c4 ⟨true, false, emptySoup⟩ (fun _ => ⟨true, false, emptySoup⟩)
      [urlKey] [[(urlKey, "a")], [(urlKey, "b")]]).2.trans (by decide)⟩

/-- Claim C9, evaluated at the failing input: when driver construction
raises after `tempfile.mkdtemp` created the profile directory, the
`except` returns `None` with `driver` and `profile_path` still unbound
in `extract_product_data`, so the `finally` runs neither
`driver.quit()` nor `cleanup_profile` — the created profile directory
is never deleted, contradicting the claim that disposal runs on every
code path including session-creation failure. -/
theorem claim_c9 :
    (extract_product_data ⟨true, false, emptySoup⟩).1 = none ∧
    (extract_product_data ⟨true, false, emptySoup⟩).2 = [SessEvent.profileCreated] ∧
    SessEvent.driverQuit ∉ (extract_product_data ⟨true, false, emptySoup⟩).2 ∧
    SessEvent.profileCleaned ∉ (extract_product_data ⟨true, false, emptySoup⟩).2 :=
  ⟨rfl, rfl, by decide, by decide⟩

/-- Claim C10: when the URL column is absent, `process_excel_file`
returns right after the diagnostic — no iteration happens, counters stay
zero, no rows accumulate, and neither a checkpoint nor the final save
runs. -/
theorem claim_c10 (sheet : Sheet) (e : String → Option (List Row))
    (h : urlKey ∉ sheet.columns) :
    process_excel_file sheet e = ⟨true, ⟨[], 0, 0, []⟩, false⟩ := by
  unfold process_excel_file
  rw [if_neg h]

/-- Claim C10 witness: a sheet with only an unrelated column. -/
theorem claim_c10_witness :
    process_excel_file ⟨["name"], [[("name", "x")]]⟩ (fun _ => none)
      = ⟨true, ⟨[], 0, 0, []⟩, false⟩ :=
  claim_c10 ⟨["name"], [[("name", "x")]]⟩ (fun _ => none) (by decide)

/-- Claim C1 witness: a page with two valid fitment rows fans out into
exactly two output rows; a page with no fitment table yields exactly one
placeholder row. -/
theorem claim_c1_witness :
    (buildRows ⟨some "T", none, false, [], none, [], none, none,
        some ⟨some [⟨some "2020", some "Jeep", some "Wrangler", some "Sport", some "3.6L"⟩,
                    ⟨some "2021", some "Ram", some "1500", none, some "5.7L"⟩], []⟩⟩).length
      = 2 ∧
    (buildRows emptySoup).length = 1 :=
  ⟨((claim_c1 ⟨some "T", none, false, [], none, [], none, none,
      some ⟨some [⟨some "2020", some "Jeep", some "Wrangler", some "Sport", some "3.6L"⟩,
                  ⟨some "2021", some "Ram", some "1500", none, some "5.7L"⟩], []⟩⟩).1
      (by decide)).1.trans (by decide),
   ((claim_c1 emptySoup).2 rfl).1⟩

/-! ## Label deduplication against the allow-list (claim C3) -/

theorem fieldStep_tracker_getV (st : Row × Tracker)
    (it : Option String × Option String) (l : String) :
    getV (fieldStep st it).2 l = getV st.2 l ∨
    (∃ c', getV st.2 l = some c' ∧ getV (fieldStep st it).2 l = some (c' + 1)) ∨
    (getV st.2 l = none ∧ getV (fieldStep st it).2 l = some 1) := by
  match it with
  | (none, _) => exact Or.inl rfl
  | (some a, none) => exact Or.inl rfl
  | (some a, some b) =>
    by_cases hs : labelSkipped (cleanLabel a) = true
    · left
      simp [fieldStep, hs]
    · cases hc : getV st.2 (cleanLabel a) with
      | some c' =>
        by_cases hl : l = cleanLabel a
        · subst hl
          right; left
          exact ⟨c', hc, by simp [fieldStep, hs, hc, getV_setV_self]⟩
        · left
          simp [fieldStep, hs, hc, getV_setV_ne _ _ _ _ hl]
      | none =>
        by_cases hl : l = cleanLabel a
        · subst hl
          right; right
          exact ⟨hc, by simp [fieldStep, hs, hc, getV_setV_self]⟩
        · left
          simp [fieldStep, hs, hc, getV_setV_ne _ _ _ _ hl]

theorem foldl_fieldStep_count :
    ∀ (items : List (Option String × Option String)) (st : Row × Tracker)
      (l : String) (c : Nat),
      getV (items.foldl fieldStep st).2 l = some c →
      (∃ c0, getV st.2 l = some c0 ∧ c0 ≤ c ∧ c ≤ c0 + items.length) ∨
      (getV st.2 l = none ∧ 1 ≤ c ∧ c ≤ items.length) := by
  intro items
  induction items with
  | nil =>
    intro st l c h
    exact Or.inl ⟨c, h, le_refl c, by simp⟩
  | cons it its ih =>
    intro st l c h
    rw [List.foldl_cons] at h
    rcases fieldStep_tracker_getV st it l with heq | ⟨c', hc', hnew⟩ | ⟨hnone, hnew⟩
    · rcases ih (fieldStep st it) l c h with ⟨c0, h0, hle, hub⟩ | ⟨h0, h1, h2⟩
      · refine Or.inl ⟨c0, heq ▸ h0, hle, ?_⟩
        simp only [List.length_cons]
        omega
      · refine Or.inr ⟨heq ▸ h0, h1, ?_⟩
        simp only [List.length_cons]
        omega
    · rcases ih (fieldStep st it) l c h with ⟨c0, h0, hle, hub⟩ | ⟨h0, h1, h2⟩
      · rw [hnew] at h0
        have hc0 : c' + 1 = c0 := by
          exact Option.some.inj h0
        refine Or.inl ⟨c', hc', by omega, ?_⟩
        simp only [List.length_cons]
        omega
      · rw [hnew] at h0
        exact absurd h0 (by simp)
    · rcases ih (fieldStep st it) l c h with ⟨c0, h0, hle, hub⟩ | ⟨h0, h1, h2⟩
      · rw [hnew] at h0
        have hc0 : (1 : Nat) = c0 := Option.some.inj h0
        refine Or.inr ⟨hnone, by omega, ?_⟩
        simp only [List.length_cons]
        omega
      · rw [hnew] at h0
        exact absurd h0 (by simp)

theorem fieldLoop_count_bounds (init : Row)
    (items : List (Option String × Option String)) (l : String) (c : Nat)
    (h : getV (fieldLoop init items).2 l = some c) :
    1 ≤ c ∧ c ≤ items.length := by
  rcases foldl_fieldStep_count items (init, []) l c h with ⟨c0, h0, _, _⟩ | ⟨_, h1, h2⟩
  · exact absurd h0 (by simp [getV])
  · exact ⟨h1, h2⟩

theorem filterMap_getV_congr (d1 d2 : Row) :
    ∀ ks : List String, (∀ k ∈ ks, getV d1 k = getV d2 k) →
      ks.filterMap (fun k => (getV d1 k).map (fun v => (k, v))) =
        ks.filterMap (fun k => (getV d2 k).map (fun v => (k, v))) := by
  intro ks
  induction ks with
  | nil => intro _; rfl
  | cons k ks ih =>
    intro h
    simp only [List.filterMap_cons]
    rw [h k (by simp), ih (fun a ha => h a (by simp [ha]))]

theorem filterAllowed_setV_notMem (d : Row) (k v : String)
    (h : k ∉ allowedKeys) : filterAllowed (setV d k v) = filterAllowed d := by
  unfold filterAllowed
  apply filterMap_getV_congr
  intro a ha
  exact getV_setV_ne d k a v (fun he => h (he ▸ ha))

/-- The spec's deduplication contract, stated as written in claim C3:
once a label has been seen, appending a further item with the same
(cleaned) label never changes the allow-list-filtered field dict — all
later occurrences of a repeated label are dropped. -/
def dedupClaim : Prop :=
  ∀ (init : Row) (items : List (Option String × Option String)) (l v : String),
    (∃ c, getV (fieldLoop init items).2 (cleanLabel l) = some c) →
    filterAllowed (fieldLoop init (items ++ [(some l, some v)])).1 =
      filterAllowed (fieldLoop init items).1

/-- Claim C3 counterexample: the allow-list does contain a suffixed
variant — `"Description 2"` — so a second `Description` item survives
filtering under that key, and the filtered output changes. -/
theorem claim_c3_counterexample : ¬ dedupClaim := by
  intro h
  have h2 := h [] [(some "Description", some "a")] "Description" "b"
    ⟨1, by decide⟩
  exact absurd h2 (by decide)

/-- Claim C3, amended: a repeated label is stored under
`label ++ " " ++ occurrence-counter` before allow-list filtering, and
for any label none of whose suffixed variants is itself in the
allow-list, later occurrences are dropped: appending a repeat of such a
label leaves the filtered ProductFields unchanged. The current
allow-list does contain one suffixed variant, `"Description 2"`, so a
second occurrence of the label `"Description"` survives (see the
counterexample); every other label behaves as the claim states. -/
theorem claim_c3 (init : Row) (items : List (Option String × Option String))
    (l v : String)
    (h1 : ∃ c, getV (fieldLoop init items).2 (cleanLabel l) = some c)
    (h2 : ∀ n, n < items.length + 2 → 2 ≤ n →
      (cleanLabel l ++ " " ++ Nat.repr n) ∉ allowedKeys) :
    filterAllowed (fieldLoop init (items ++ [(some l, some v)])).1 =
      filterAllowed (fieldLoop init items).1 := by
  obtain ⟨c, hc⟩ := h1
  obtain ⟨hc1, hc2⟩ := fieldLoop_count_bounds init items (cleanLabel l) c hc
  unfold fieldLoop at hc ⊢
  rw [List.foldl_append]
  simp only [List.foldl_cons, List.foldl_nil]
  by_cases hskip : labelSkipped (cleanLabel l) = true
  · have hstep : fieldStep (items.foldl fieldStep (init, [])) (some l, some v)
        = items.foldl fieldStep (init, []) := by
      simp [fieldStep, hskip]
    rw [hstep]
  · have hstep : fieldStep (items.foldl fieldStep (init, [])) (some l, some v)
        = (setV (items.foldl fieldStep (init, [])).1
            (cleanLabel l ++ " " ++ Nat.repr (c + 1)) (pyStrip v),
           setV (items.foldl fieldStep (init, [])).2 (cleanLabel l) (c + 1)) := by
      simp [fieldStep, hskip, hc]
    rw [hstep]
    exact filterAllowed_setV_notMem _ _ _
      (h2 (c + 1) (by omega) (by omega))

/-- Claim C3 witness: a repeated `SKU` item (its suffixed variants are
not allow-listed) contributes nothing to the filtered fields. -/
theorem claim_c3_witness :
    filterAllowed (fieldLoop [] ([(some "SKU", some "a")] ++
        [(some "SKU", some "b")])).1 =
      filterAllowed (fieldLoop [] [(some "SKU", some "a")]).1 :=
  claim_c3 [] [(some "SKU", some "a")] "SKU" "b" ⟨1, by decide⟩ (by decide)
